import Mathlib

/-!
Shallow embedding of the `pdf_heading` repository (PDF outline extraction
pipeline) and verification of its specification claims.

Source files embedded:
* `utils/pdf_extractor.py`   — block extraction, table inference, style detection
* `utils/feature_extractor.py` and `utils/feature_extractor_lite.py` — feature engine
* `predict.py`               — sequential single-document inference
* `process_all_pdfs.py`      — batch inference
* `main.py`                  — training entry (label mapping, bundle contents)
* `upgrade_data.py`          — dataset language-upgrade pass

Python floats are modelled as exact rationals (`ℚ`), dicts with known keys as
structures whose field defaults mirror the `.get(key, default)` defaults used
at the corresponding read sites, and generic JSON dicts (for `upgrade_data.py`)
as association lists.  External collaborators (the statistical classifier, the
language detector) are parameters.
-/

/-! ### Python primitive helpers -/

/-- Python `str.strip()`: drop leading and trailing whitespace. -/
def pyStrip (s : String) : String :=
  ⟨((s.toList.dropWhile Char.isWhitespace).reverse.dropWhile Char.isWhitespace).reverse⟩

/-- Worker for `str.split()`: accumulate the current word (reversed) while
scanning, emitting words at whitespace boundaries. -/
def splitWsAux : List Char → List Char → List String
  | [], cur => if cur.isEmpty then [] else [⟨cur.reverse⟩]
  | c :: cs, cur =>
    if c.isWhitespace then
      if cur.isEmpty then splitWsAux cs [] else ⟨cur.reverse⟩ :: splitWsAux cs []
    else splitWsAux cs (c :: cur)

/-- Python `str.split()` with no argument: split on whitespace runs, dropping
empty pieces. -/
def pySplitWs (s : String) : List String := splitWsAux s.toList []

/-- `re.sub(r'\s+', ' ', s.replace('’', "'")).strip()` from
`PdfExtractor._process_block`: collapse whitespace runs to single spaces,
trim, and normalize the right single quotation mark (U+2019). -/
def normalizeText (s : String) : String :=
  String.intercalate " " (pySplitWs ⟨s.toList.map (fun c => if c = '\u2019' then '\x27' else c)⟩)

/-- Python `s.startswith(t)`. -/
def pyStartsWith (s t : String) : Bool := t.toList.isPrefixOf s.toList

/-- Python `s.endswith(t)`. -/
def pyEndsWith (s t : String) : Bool := t.toList.isSuffixOf s.toList

/-- Python `str.lower()` (ASCII model). -/
def pyToLower (s : String) : String := ⟨s.toList.map Char.toLower⟩

/-- Lexicographic code-point comparison of character lists (Python string
`<=`, the order `sorted` uses). -/
def charListLe : List Char → List Char → Bool
  | [], _ => true
  | _ :: _, [] => false
  | x :: xs, y :: ys =>
    if x.toNat < y.toNat then true
    else if y.toNat < x.toNat then false
    else charListLe xs ys

/-- Python string `<=` as a proposition, for `sorted`. -/
def pyStrLe (a b : String) : Prop := charListLe a.toList b.toList = true

instance : DecidableRel pyStrLe := fun a b => by
  unfold pyStrLe; infer_instance

/-- Python `str.isdigit()` (ASCII model): nonempty and all digits. -/
def pyIsDigit (s : String) : Bool :=
  s ≠ "" && s.toList.all Char.isDigit

/-- Python `str.isupper()` (ASCII model): at least one uppercase letter and
no lowercase letter. -/
def pyIsUpper (s : String) : Bool :=
  s.toList.any Char.isUpper && s.toList.all (fun c => !c.isLower)

/-- Decimal digit-run accumulator. -/
def digitsToNat : List Char → Nat → Nat
  | [], acc => acc
  | c :: cs, acc => digitsToNat cs (10 * acc + (c.toNat - 48))

/-- Parse a nonempty all-digit character run; `none` otherwise. -/
def pyParseNat? (cs : List Char) : Option Nat :=
  if cs.isEmpty then none
  else if cs.all Char.isDigit then some (digitsToNat cs 0) else none

/-- Python `int(s)` on a decimal literal with optional sign and surrounding
whitespace; `none` when the parse fails (models the raised `ValueError`). -/
def pyIntOfString (s : String) : Option Int :=
  match (pyStrip s).toList with
  | '-' :: rest => (pyParseNat? rest).map (fun n => -(n : Int))
  | '+' :: rest => (pyParseNat? rest).map (fun n => (n : Int))
  | t => (pyParseNat? t).map (fun n => (n : Int))

/-- Substring containment test (`kw in s` on Python strings). -/
def strContains (s pat : String) : Bool :=
  (List.range (s.toList.length + 1)).any (fun i => pat.toList.isPrefixOf (s.toList.drop i))

/-- Python `max(set(l), key=l.count)` with a default for the empty list:
an element of maximal multiplicity (first maximal over the deduplicated
enumeration, matching `max`'s keep-first-strict-winner behaviour). -/
def mostCommon {α : Type} [DecidableEq α] (l : List α) (dflt : α) : α :=
  match l.dedup with
  | [] => dflt
  | x :: xs => xs.foldl (fun best c => if l.count best < l.count c then c else best) x

/-- Minimum of `x` and a list (Python `min` over a nonempty sequence). -/
def qMinList (x : ℚ) (l : List ℚ) : ℚ := l.foldl min x

/-- Maximum of `x` and a list (Python `max` over a nonempty sequence). -/
def qMaxList (x : ℚ) (l : List ℚ) : ℚ := l.foldl max x

/-- `np.median` over a nonempty list: middle element of the sorted list for odd
length, average of the two middle elements for even length. -/
def npMedian (l : List ℚ) : ℚ :=
  let s := List.insertionSort (fun a b => a ≤ b) l
  let n := s.length
  if n = 0 then 0
  else if n % 2 = 1 then s.getD (n / 2) 0
  else (s.getD (n / 2 - 1) 0 + s.getD (n / 2) 0) / 2

/-- Python `dict.get(k, d)` on a string-keyed map modelled as an association
list. -/
def dictGet (m : List (String × Int)) (k : String) (d : Int) : Int :=
  match m.find? (fun p => p.1 == k) with
  | some p => p.2
  | none => d

/-- Indicator used when a Python `bool` (or `float(bool)`) flows into the
numeric feature vector. -/
def bq (b : Bool) : ℚ := if b then 1 else 0

/-! ### Data model: decoder output (`page.get_text("dict")` and
`page.get_drawings()`) -/

/-- A geometric rectangle `(x0, y0, x1, y1)` (`fitz.Rect`). -/
structure BBox where
  x0 : ℚ
  y0 : ℚ
  x1 : ℚ
  y1 : ℚ
deriving DecidableEq, Repr

/-- `fitz.Rect.width`. -/
def rectWidth (r : BBox) : ℚ := r.x1 - r.x0

/-- `fitz.Rect.height`. -/
def rectHeight (r : BBox) : ℚ := r.y1 - r.y0

/-- PyMuPDF point-in-rect test (`point in rect`, closed on all sides). -/
def rectContainsPoint (r : BBox) (p : ℚ × ℚ) : Bool :=
  decide (r.x0 ≤ p.1 ∧ p.1 ≤ r.x1 ∧ r.y0 ≤ p.2 ∧ p.2 ≤ r.y1)

/-- One decoded text span: text run with uniform font, size and style
bit-flags.  The style flags are part of the decoder contract (bit 1 = italic,
bit 4 = bold); `pdf_extractor.py` receives but never reads them. -/
structure Span where
  text : String
  size : ℚ
  font : String
  flags : Nat
deriving DecidableEq, Repr

/-- One decoded line: a list of spans. -/
structure RawLine where
  spans : List Span
deriving DecidableEq, Repr

/-- One raw decoded block from `page.get_text("dict")["blocks"]`. -/
structure RawBlock where
  type : Nat
  lines : List RawLine
  bbox : BBox
deriving DecidableEq, Repr

/-- One decoded page: geometry, vector drawing rectangles, raw blocks. -/
structure RawPage where
  width : ℚ
  height : ℚ
  drawings : List BBox
  blocks : List RawBlock
deriving DecidableEq, Repr

/-! ### Data model: enriched block (the dict built by
`PdfExtractor._process_block`, plus keys added later in the pipeline).
Field defaults mirror the `.get(key, default)` defaults used where the
pipeline reads these keys. -/

/-- An enriched text block. -/
structure Block where
  text : String := ""
  bbox : BBox := ⟨0, 0, 0, 0⟩
  page_number : Nat := 0
  page_width : ℚ := 612
  page_height : ℚ := 792
  font_size : ℚ := 0
  font_name : String := "default"
  is_bold : Bool := false
  is_italic : Bool := false
  word_count : Nat := 0
  line_count : Nat := 1
  is_in_table : Bool := false
  has_separator_above : Bool := false
  column : Nat := 1
  vertical_space_before : ℚ := 50
  vertical_space_after : ℚ := 50
  char_count : Nat := 0
  label : String := "NONE"
  language : String := "unknown"
deriving DecidableEq, Repr

/-! ### `utils/pdf_extractor.py` -/

/-- `PdfExtractor._get_table_bboxes_from_lines`: classify drawing rectangles
into horizontal rulings (width > 30, height < 3) and vertical rulings
(height > 20, width < 3); if both families are present, return the single
rectangle `[min v.x0, min h.y0, max v.x1, max h.y1]`. -/
def PdfExtractor.getTableBboxesFromLines (drawings : List BBox) : List BBox :=
  if drawings.isEmpty then []
  else
    let hLines := drawings.filter (fun r => decide (30 < rectWidth r ∧ rectHeight r < 3))
    let vLines := drawings.filter (fun r => decide (20 < rectHeight r ∧ rectWidth r < 3))
    match hLines, vLines with
    | [], _ => []
    | _, [] => []
    | h0 :: hs, v0 :: vs =>
        [⟨qMinList v0.x0 (vs.map BBox.x0), qMinList h0.y0 (hs.map BBox.y0),
          qMaxList v0.x1 (vs.map BBox.x1), qMaxList h0.y1 (hs.map BBox.y1)⟩]

/-- All spans of a raw block, in line order. -/
def blockSpans (b : RawBlock) : List Span :=
  b.lines.flatMap RawLine.spans

/-- Font-name keywords the extractor treats as indicating bold weight. -/
def boldKeywords : List String := ["bold", "black", "heavy", "semibold"]

/-- Font-name keywords the extractor treats as indicating italic style. -/
def italicKeywords : List String := ["italic", "oblique"]

/-- The dominant font name of a raw block
(`max(set(font_names), key=font_names.count)`). -/
def RawBlock.mostCommonFont (b : RawBlock) : String :=
  mostCommon ((blockSpans b).map Span.font) "N/A"

/-- Keyword-based bold detection on a dominant font name
(`any(keyword in font_name_lower for keyword in bold_keywords)`). -/
def boldFromFontName (fontName : String) : Bool :=
  boldKeywords.any (fun kw => strContains (pyToLower fontName) kw)

/-- Keyword-based italic detection on a dominant font name. -/
def italicFromFontName (fontName : String) : Bool :=
  italicKeywords.any (fun kw => strContains (pyToLower fontName) kw)

/-- The geometric center of a rectangle (`(bbox.tl + bbox.br) / 2`). -/
def blockCenter (r : BBox) : ℚ × ℚ := ((r.x0 + r.x1) / 2, (r.y0 + r.y1) / 2)

/-- `PdfExtractor._process_block`: consolidate span texts/sizes/fonts, build
the enriched block dict; `none` when the block has no spans at all. -/
def PdfExtractor.processBlock (block : RawBlock) (page : RawPage) (pageNum : Nat)
    (tableBboxes : List BBox) : Option Block :=
  let spans := blockSpans block
  let textParts := spans.map Span.text
  let fontSizes := spans.map Span.size
  if textParts.isEmpty then none
  else
    let blockText := normalizeText (String.intercalate " " textParts)
    let mcf := block.mostCommonFont
    let center := blockCenter block.bbox
    some {
      text := blockText
      bbox := block.bbox
      page_number := pageNum
      page_width := page.width
      page_height := page.height
      font_size := mostCommon fontSizes 0
      font_name := mcf
      is_bold := boldFromFontName mcf
      is_italic := italicFromFontName mcf
      word_count := (pySplitWs blockText).length
      line_count := block.lines.length
      is_in_table := tableBboxes.any (fun r => rectContainsPoint r center)
      column := if center.1 < page.width / 2 then 1 else 2
    }

/-- The per-page sort key comparison used by
`sorted(blocks, key=lambda b: (b['bbox'][1], b['bbox'][0]))`: lexicographic
on `(y0, x0)`. -/
def rawKeyLe (a b : RawBlock) : Prop :=
  a.bbox.y0 < b.bbox.y0 ∨ (a.bbox.y0 = b.bbox.y0 ∧ a.bbox.x0 ≤ b.bbox.x0)

instance : DecidableRel rawKeyLe := fun a b => by
  unfold rawKeyLe; infer_instance

/-- The per-raw-block body of the page loop: keep type-0 blocks with at
least one line, process them, and keep the result when its normalized text
is nonempty (`if block.get('type') == 0 and block.get('lines')` plus
`if processed_block and processed_block['text']`). -/
def PdfExtractor.keepBlock (page : RawPage) (pageNum : Nat) (tableBboxes : List BBox)
    (b : RawBlock) : Option Block :=
  if b.type = 0 ∧ b.lines ≠ [] then
    match PdfExtractor.processBlock b page pageNum tableBboxes with
    | some pb => if pb.text ≠ "" then some pb else none
    | none => none
  else none

/-- One iteration of the page loop of
`PdfExtractor.extract_enriched_blocks`: sort the raw blocks into reading
order (Python `sorted` is stable; `insertionSort` computes the same list),
then filter-process them. -/
def PdfExtractor.extractPage (page : RawPage) (pageNum : Nat) : List Block :=
  let tableBboxes := PdfExtractor.getTableBboxesFromLines page.drawings
  (List.insertionSort rawKeyLe page.blocks).filterMap
    (PdfExtractor.keepBlock page pageNum tableBboxes)

/-- The page loop `for page_num, page in enumerate(doc, 1)` accumulating
processed blocks over pages numbered from `k`. -/
def PdfExtractor.extractPagesFrom (k : Nat) : List RawPage → List Block
  | [] => []
  | p :: ps => PdfExtractor.extractPage p k ++ PdfExtractor.extractPagesFrom (k + 1) ps

/-- `PdfExtractor._post_process_spacing`: fill `vertical_space_after` and
`vertical_space_before` from the same-page neighbours, with sentinel 100 at
page boundaries. -/
def PdfExtractor.postProcessSpacing (allBlocks : List Block) : List Block :=
  allBlocks.enum.map (fun p =>
    let i := p.1
    let b := p.2
    let after := match allBlocks.get? (i + 1) with
      | some nb => if nb.page_number = b.page_number then nb.bbox.y0 - b.bbox.y1 else 100
      | none => 100
    let before :=
      if i = 0 then 100
      else match allBlocks.get? (i - 1) with
        | some pb => if pb.page_number = b.page_number then b.bbox.y0 - pb.bbox.y1 else 100
        | none => 100
    { b with vertical_space_after := after, vertical_space_before := before })

/-- `PdfExtractor.extract_enriched_blocks` over a decoded document. -/
def PdfExtractor.extractEnrichedBlocks (pages : List RawPage) : List Block :=
  PdfExtractor.postProcessSpacing (PdfExtractor.extractPagesFrom 1 pages)

/-! ### The leading-pattern regular expression of
`feature_extractor.py` line 84:
`^((\d+(\.\d+)*\.|[A-Z]\.|\(?[a-z\d]\)|[IVXLC]+\.)|((Appendix|Phase|Chapter|Section|Article)\s[A-Z\d]))`
with `re.IGNORECASE`, anchored at the start (`re.match`). -/

/-- Alternative `\d+(\.\d+)*\.` ≡ `(\d+\.)+` as a prefix: a nonempty digit
run followed by a period (greedy matching with backtracking reduces to
exactly this test). -/
def matchNumDot (cs : List Char) : Bool :=
  let ds := cs.takeWhile Char.isDigit
  !ds.isEmpty &&
    (match cs.drop ds.length with
     | '.' :: _ => true
     | _ => false)

/-- Alternative `[A-Z]\.` under `IGNORECASE`: an ASCII letter then a period. -/
def matchLetterDot (cs : List Char) : Bool :=
  match cs with
  | a :: '.' :: _ => a.isAlpha
  | _ => false

/-- Alternative `\(?[a-z\d]\)` under `IGNORECASE`: optional opening
parenthesis, one ASCII letter or digit, closing parenthesis. -/
def matchParenItem (cs : List Char) : Bool :=
  match cs with
  | '(' :: a :: ')' :: _ => a.isAlpha || a.isDigit
  | a :: ')' :: _ => a.isAlpha || a.isDigit
  | _ => false

/-- The roman-numeral letters of `[IVXLC]` together with their lowercase
forms (`IGNORECASE`). -/
def romanChars : List Char := ['I', 'V', 'X', 'L', 'C', 'i', 'v', 'x', 'l', 'c']

/-- Alternative `[IVXLC]+\.`: a nonempty roman-letter run followed by a
period (again, backtracking reduces to the maximal-run test). -/
def matchRoman (cs : List Char) : Bool :=
  let rs := cs.takeWhile (fun c => romanChars.contains c)
  !rs.isEmpty &&
    (match cs.drop rs.length with
     | '.' :: _ => true
     | _ => false)

/-- The keyword set of `(Appendix|Phase|Chapter|Section|Article)`,
lowercased for the `IGNORECASE` comparison. -/
def headingKeywords : List String := ["appendix", "phase", "chapter", "section", "article"]

/-- Alternative `(Appendix|Phase|Chapter|Section|Article)\s[A-Z\d]` under
`IGNORECASE`: a keyword, one whitespace character, then an ASCII letter or
digit. -/
def matchKeywordStart (s : String) : Bool :=
  headingKeywords.any (fun kw =>
    pyStartsWith (pyToLower s) kw &&
      (match s.toList.drop kw.length with
       | c :: d :: _ => c.isWhitespace && (d.isAlpha || d.isDigit)
       | _ => false))

/-- `float(bool(re.match(pattern, text, re.IGNORECASE)))`'s boolean core:
does the heading-numbering pattern match at the start of `text`? -/
def startsWithPattern (s : String) : Bool :=
  let cs := s.toList
  matchNumDot cs || matchLetterDot cs || matchParenItem cs || matchRoman cs ||
    matchKeywordStart s

/-! ### Heading context (shared verbatim by `FeatureExtractor.extract_features`
and `FeatureExtractorLite.extract_features`) -/

/-- The `last_heading_info` record: index of the last resolved heading
(−1 if none), its level (0 if none), its font size (document median if
none). -/
structure HeadingInfo where
  index : Int
  level : Int
  font_size : ℚ
deriving DecidableEq, Repr

/-- `if label.startswith('H'): level = int(label[1:])`, with the
`except (ValueError, IndexError): pass` modelled by `none`. -/
def parseHeadingLevel (label : String) : Option Int :=
  if pyStartsWith label "H" then pyIntOfString ⟨label.toList.drop 1⟩ else none

/-- The context-threading loop body shared by both training extractors:
emit the state seen by block `i`, then update it when block `i`'s label
parses as a heading. -/
def headingContextsAux (cur : HeadingInfo) (i : Nat) : List Block → List HeadingInfo
  | [] => []
  | b :: bs =>
    let next : HeadingInfo :=
      match parseHeadingLevel b.label with
      | some L => ⟨(i : Int), L, b.font_size⟩
      | none => cur
    cur :: headingContextsAux next (i + 1) bs

/-- The `heading_context` list built by `extract_features`: the state visible
to block `i` is the state before block `i`'s own transition. -/
def headingContexts (blocks : List Block) (medianFont : ℚ) : List HeadingInfo :=
  headingContextsAux ⟨-1, 0, medianFont⟩ 0 blocks

/-- The document-wide median font size:
`np.median([fs for fs in sizes if fs > 6]) if any else 12.0`. -/
def docMedianFont (blocks : List Block) : ℚ :=
  let sizes := (blocks.map Block.font_size).filter (fun q => decide (6 < q))
  if sizes.isEmpty then 12 else npMedian sizes

/-! ### `utils/feature_extractor.py` (full extractor, used by `predict.py`) -/

/-- `FeatureExtractor.feature_names` (verbatim, 22 entries). -/
def FeatureExtractor.feature_names : List String :=
  ["font_size", "is_bold", "is_italic", "relative_font_size", "font_name_id", "bold_x_rel_size",
   "line_width_ratio", "y_position_normalized", "x_position_normalized", "is_centered",
   "is_in_table", "column",
   "space_before_ratio", "space_after_ratio",
   "line_count", "word_count", "is_all_caps", "ends_with_punct", "starts_with_pattern",
   "last_heading_level", "distance_from_last_heading", "font_size_vs_last_heading"]

/-- `FeatureExtractor._get_font_mapping`: sorted distinct observed font
names, assigned dense ids in sorted order. -/
def FeatureExtractor.getFontMapping (allBlocks : List Block) : List (String × Int) :=
  let uniq := List.insertionSort pyStrLe ((allBlocks.map Block.font_name).dedup)
  uniq.enum.map (fun p => (p.2, (p.1 : Int)))

/-- `FeatureExtractor._get_block_features`: the full 23-entry feature row
(source lines 66–88, in source order). -/
def FeatureExtractor.getBlockFeatures (block : Block) (index : Nat) (medianFont : ℚ)
    (fontMap : List (String × Int)) (context : HeadingInfo) : List ℚ :=
  let text := block.text
  let font_size := block.font_size
  let is_bold := bq block.is_bold
  let x0 := block.bbox.x0
  let y0 := block.bbox.y0
  let x1 := block.bbox.x1
  let page_width := block.page_width
  let page_height := block.page_height
  let relative_size := if 0 < medianFont then font_size / medianFont else 1
  let last_heading_level : ℚ := (context.level : ℚ)
  let distance_from_last_heading : ℚ :=
    if context.index ≠ -1 then (((index : Int) - context.index : Int) : ℚ) else 100
  let last_heading_font_size := if 0 < context.font_size then context.font_size else medianFont
  let font_size_vs_last_heading :=
    if 0 < last_heading_font_size then font_size / last_heading_font_size else 1
  [font_size, is_bold, bq block.is_italic, relative_size,
   ((dictGet fontMap block.font_name (-1) : Int) : ℚ), is_bold * relative_size,
   if 0 < page_width then (x1 - x0) / page_width else 0,
   if 0 < page_height then y0 / page_height else 0,
   if 0 < page_width then x0 / page_width else 0,
   if 0 < page_width then bq (decide (|((x0 + x1) / 2) / page_width - 1/2| < 3/20)) else 0,
   bq block.has_separator_above, bq block.is_in_table,
   (block.column : ℚ),
   if 0 < font_size then block.vertical_space_before / font_size else 5,
   if 0 < font_size then block.vertical_space_after / font_size else 5,
   (block.line_count : ℚ), (block.word_count : ℚ),
   bq (pyIsUpper text && decide (3 < text.length)),
   bq (pyEndsWith (pyStrip text) ":" || pyEndsWith (pyStrip text) "."),
   bq (startsWithPattern text),
   last_heading_level,
   distance_from_last_heading,
   font_size_vs_last_heading]

/-- `FeatureExtractor.extract_features`: the training-side batch extraction
(feature matrix and font map). -/
def FeatureExtractor.extract_features (allBlocks : List Block) :
    List (List ℚ) × List (String × Int) :=
  if allBlocks.isEmpty then ([], [])
  else
    let medianFont := docMedianFont allBlocks
    let fontMap := FeatureExtractor.getFontMapping allBlocks
    let ctxs := headingContexts allBlocks medianFont
    ((allBlocks.zip ctxs).enum.map (fun p =>
        FeatureExtractor.getBlockFeatures p.2.1 p.1 medianFont fontMap p.2.2),
     fontMap)

/-! ### `utils/feature_extractor_lite.py` (lite extractor, used by `main.py`
training and `process_all_pdfs.py` batch inference) -/

/-- `FeatureExtractorLite.feature_names` (verbatim, 21 entries). -/
def FeatureExtractorLite.feature_names : List String :=
  ["font_size", "is_bold", "is_italic", "relative_font_size", "font_name_id", "bold_x_rel_size",
   "line_width_ratio", "y_position_normalized", "x_position_normalized", "is_centered",
   "is_in_table", "column", "space_before_ratio", "space_after_ratio",
   "line_count", "char_count", "ends_with_punct", "language_id",
   "last_heading_level", "distance_from_last_heading", "font_size_vs_last_heading"]

/-- `FeatureExtractorLite._get_font_mapping` (identical to the full
extractor's). -/
def FeatureExtractorLite.getFontMapping (allBlocks : List Block) : List (String × Int) :=
  let uniq := List.insertionSort pyStrLe ((allBlocks.map Block.font_name).dedup)
  uniq.enum.map (fun p => (p.2, (p.1 : Int)))

/-- `FeatureExtractorLite._get_language_mapping`: sorted distinct observed
language codes, assigned dense ids in sorted order. -/
def FeatureExtractorLite.getLanguageMapping (allBlocks : List Block) : List (String × Int) :=
  let uniq := List.insertionSort pyStrLe ((allBlocks.map Block.language).dedup)
  uniq.enum.map (fun p => (p.2, (p.1 : Int)))

/-- The punctuation tuple of
`text.strip().endswith((':', '.', '。', '：', '!', '?'))`. -/
def litePunct : List String := [":", ".", "。", "：", "!", "?"]

/-- `FeatureExtractorLite._get_block_features`: the 21-entry feature row
(source lines 77–89, in source order). -/
def FeatureExtractorLite.getBlockFeatures (block : Block) (index : Nat) (medianFont : ℚ)
    (fontMap langMap : List (String × Int)) (context : HeadingInfo) : List ℚ :=
  let text := block.text
  let font_size := block.font_size
  let is_bold := bq block.is_bold
  let x0 := block.bbox.x0
  let y0 := block.bbox.y0
  let x1 := block.bbox.x1
  let page_width := block.page_width
  let page_height := block.page_height
  let relative_size := if 0 < medianFont then font_size / medianFont else 1
  let last_heading_level : ℚ := (context.level : ℚ)
  let distance_from_last_heading : ℚ :=
    if context.index ≠ -1 then (((index : Int) - context.index : Int) : ℚ) else 100
  let last_heading_font_size := if 0 < context.font_size then context.font_size else medianFont
  let font_size_vs_last_heading :=
    if 0 < last_heading_font_size then font_size / last_heading_font_size else 1
  let language_id : ℚ := ((dictGet langMap block.language (-1) : Int) : ℚ)
  [font_size, is_bold, bq block.is_italic, relative_size,
   ((dictGet fontMap block.font_name (-1) : Int) : ℚ), is_bold * relative_size,
   if 0 < page_width then (x1 - x0) / page_width else 0,
   if 0 < page_height then y0 / page_height else 0,
   if 0 < page_width then x0 / page_width else 0,
   if 0 < page_width then bq (decide (|((x0 + x1) / 2) / page_width - 1/2| < 3/20)) else 0,
   bq block.is_in_table, (block.column : ℚ),
   if 0 < font_size then block.vertical_space_before / font_size else 5,
   if 0 < font_size then block.vertical_space_after / font_size else 5,
   (block.line_count : ℚ), (block.char_count : ℚ),
   bq (litePunct.any (fun t => pyEndsWith (pyStrip text) t)),
   language_id,
   last_heading_level,
   distance_from_last_heading,
   font_size_vs_last_heading]

/-- `FeatureExtractorLite.extract_features`: builds the font map **and the
language map from the supplied block list itself** and returns the feature
matrix together with the font map. -/
def FeatureExtractorLite.extract_features (allBlocks : List Block) :
    List (List ℚ) × List (String × Int) :=
  if allBlocks.isEmpty then ([], [])
  else
    let medianFont := docMedianFont allBlocks
    let fontMap := FeatureExtractorLite.getFontMapping allBlocks
    let langMap := FeatureExtractorLite.getLanguageMapping allBlocks
    let ctxs := headingContexts allBlocks medianFont
    ((allBlocks.zip ctxs).enum.map (fun p =>
        FeatureExtractorLite.getBlockFeatures p.2.1 p.1 medianFont fontMap langMap p.2.2),
     fontMap)

/-! ### `main.py`: label taxonomy and bundle contents -/

/-- `LABEL_MAPPING = {'NONE': 0, 'TITLE': 1, 'H1': 2, 'H2': 3, 'H3': 4, 'H4': 5}`. -/
def LABEL_MAPPING : List (String × Int) :=
  [("NONE", 0), ("TITLE", 1), ("H1", 2), ("H2", 3), ("H3", 4), ("H4", 5)]

/-- Inverse label lookup with a default: `inverse_label_map.get(v, d)`.
`predict.py` indexes the inverse map directly (a missing id would raise);
it is only ever applied to ids produced by the model or taken from the map,
so the default is never reached in runs the claims quantify over. -/
def invLabelGetD (labelMap : List (String × Int)) (v : Int) (d : String) : String :=
  match labelMap.find? (fun p => p.2 == v) with
  | some p => p.1
  | none => d

/-! ### `predict.py`: sequential single-document inference -/

/-- One pass of the `for i, block in enumerate(blocks)` loop of
`predict_outline`, instrumented to also return the `last_heading_info`
visible to each block.  Per block: featurize with the current context
(using the **bundle's** font map), let the model predict, force the label id
to `label_map['NONE']` when the block is in a table, and update the context
from the resolved label string. -/
def predictScan (model : List ℚ → Int) (fontMap labelMap : List (String × Int))
    (medianFont : ℚ) : Nat → HeadingInfo → List Block → List (HeadingInfo × Int)
  | _, _, [] => []
  | i, cur, b :: bs =>
    let feats := FeatureExtractor.getBlockFeatures b i medianFont fontMap cur
    let rawPred := model feats
    let corrected := if b.is_in_table then dictGet labelMap "NONE" 0 else rawPred
    let labelStr := invLabelGetD labelMap corrected "NONE"
    let next : HeadingInfo :=
      match parseHeadingLevel labelStr with
      | some L => ⟨(i : Int), L, b.font_size⟩
      | none => cur
    (cur, corrected) :: predictScan model fontMap labelMap medianFont (i + 1) next bs

/-- The per-block contexts used by the inference loop. -/
def predictContexts (model : List ℚ → Int) (fontMap labelMap : List (String × Int))
    (blocks : List Block) : List HeadingInfo :=
  let medianFont := docMedianFont blocks
  (predictScan model fontMap labelMap medianFont 0 ⟨-1, 0, medianFont⟩ blocks).map Prod.fst

/-- The final (table-rule–corrected) label strings of `predict_outline`, as
used by its assembly loop (`inverse_label_map[predictions[i]]`). -/
def predictFinalLabels (model : List ℚ → Int) (fontMap labelMap : List (String × Int))
    (blocks : List Block) : List String :=
  let medianFont := docMedianFont blocks
  ((predictScan model fontMap labelMap medianFont 0 ⟨-1, 0, medianFont⟩ blocks).map
    Prod.snd).map (fun v => invLabelGetD labelMap v "NONE")

/-- One outline entry `{'level': .., 'text': .., 'page': ..}`. -/
structure OutlineEntry where
  level : String
  text : String
  page : Nat
deriving DecidableEq, Repr

/-- The final output object `{"title": .., "outline": ..}`. -/
structure FinalOutput where
  title : String
  outline : List OutlineEntry
deriving DecidableEq, Repr

/-- The assembly loop shared by `predict.py` and `process_all_pdfs.py`:
title = space-joined texts of TITLE blocks (placeholder if none), outline =
filtered projection of heading-labelled blocks, in block order. -/
def assembleOutline (blocks : List Block) (labels : List String) : FinalOutput :=
  let pairs := blocks.zip labels
  let titleParts := (pairs.filter (fun p => p.2 == "TITLE")).map (fun p => p.1.text)
  let outline := pairs.filterMap (fun p =>
    if pyStartsWith p.2 "H" then some ⟨p.2, p.1.text, p.1.page_number⟩ else none)
  let docTitle :=
    if titleParts.isEmpty then "Document Title Not Found"
    else String.intercalate " " titleParts
  ⟨docTitle, outline⟩

/-- `predict_outline` from extracted blocks onward: with zero blocks it
warns and returns without producing any output (modelled as `none`);
otherwise it classifies sequentially and assembles the outline. -/
def predict_outline (model : List ℚ → Int) (fontMap labelMap : List (String × Int))
    (blocks : List Block) : Option FinalOutput :=
  if blocks.isEmpty then none
  else some (assembleOutline blocks (predictFinalLabels model fontMap labelMap blocks))

/-! ### `process_all_pdfs.py`: batch inference for one document -/

/-- The per-block business-rule overlay of `process_all_pdfs` (lines 67–72):
force `'NONE'` when the block is table-resident or its trimmed text is
digits-only; otherwise keep the label. -/
def ruleOverlay (blocks : List Block) (labels : List String) : List String :=
  (blocks.zip labels).map (fun p =>
    if p.1.is_in_table || pyIsDigit (pyStrip p.1.text) then "NONE" else p.2)

/-- The per-document body of the `process_all_pdfs` loop, from extracted
blocks onward: skip (`none`) when no blocks or no feature rows; otherwise
featurize **with maps rebuilt from this document by
`FeatureExtractorLite.extract_features`**, predict all blocks at once,
apply the rule overlay, and assemble. -/
def processDocument (model : List ℚ → Int) (labelMap : List (String × Int))
    (blocks : List Block) : Option FinalOutput :=
  if blocks.isEmpty then none
  else
    let rows := (FeatureExtractorLite.extract_features blocks).1
    if rows.isEmpty then none
    else
      let preds := rows.map model
      let rawLabels := preds.map (fun v => invLabelGetD labelMap v "NONE")
      some (assembleOutline blocks (ruleOverlay blocks rawLabels))

/-! ### `upgrade_data.py`: dataset language-upgrade pass.
Blocks are generic JSON objects here, modelled as association lists. -/

/-- A JSON scalar value. -/
inductive JVal where
  | str (s : String)
  | num (q : ℚ)
  | boolean (b : Bool)
  | null
deriving DecidableEq, Repr

/-- A labelled-data block record: a JSON object (association list with
insertion order, as in a Python dict). -/
abbrev JBlock := List (String × JVal)

/-- Python `key in block` / `block.get(key)` lookup. -/
def jget (b : JBlock) (k : String) : Option JVal :=
  (b.find? (fun p => p.1 == k)).map Prod.snd

/-- The per-block body of `upgrade_dataset` (source lines 48–64): skip a
block that already has a `'language'` key; otherwise detect the language of
`block.get('text', '')` (failure or empty text gives `'unknown'`) and add the
new key.  `detectLang` is the external `langdetect.detect`, with `none`
modelling a raised `LangDetectException`. -/
def upgradeBlock (detectLang : String → Option String) (block : JBlock) : JBlock :=
  if (jget block "language").isSome then block
  else
    let textToDetect :=
      match jget block "text" with
      | some (JVal.str s) => s
      | _ => ""
    let detected :=
      if textToDetect = "" then "unknown" else (detectLang textToDetect).getD "unknown"
    block ++ [("language", JVal.str detected)]

/-- The block loop of `upgrade_dataset` over one file's block list. -/
def upgradeDataset (detectLang : String → Option String) (blocks : List JBlock) : List JBlock :=
  blocks.map (upgradeBlock detectLang)

/-! ### Definitions following the spec's words, for comparison with the
source (used only to falsify claims the source deviates from). -/

/-- Following the spec's words (§4.1): bold = majority vote over the spans'
style bit-flags' bold bit (bit 4 in the decoder contract). -/
def specBoldByFlagsVote (spans : List Span) : Bool :=
  decide (spans.length < 2 * (spans.filter (fun s => s.flags.testBit 4)).length)

/-- Following the spec's words (§4.1 table inference / claim C7): the one
bounding rectangle spanning **all** rulings, horizontal and vertical alike. -/
def specSpanningRect (rulings : List BBox) : Option BBox :=
  match rulings with
  | [] => none
  | r :: rs =>
      some ⟨qMinList r.x0 (rs.map BBox.x0), qMinList r.y0 (rs.map BBox.y0),
            qMaxList r.x1 (rs.map BBox.x1), qMaxList r.y1 (rs.map BBox.y1)⟩

/-- Rectangle containment (is `inner` inside `outer`?), used to express
"the inferred rectangle spans a ruling". -/
def rectContainsRect (outer inner : BBox) : Bool :=
  decide (outer.x0 ≤ inner.x0 ∧ outer.y0 ≤ inner.y0 ∧ inner.x1 ≤ outer.x1 ∧ inner.y1 ≤ outer.y1)

/-! Rational arithmetic in Batteries is `@[irreducible]` by default, which
blocks `rfl`/`decide` evaluation of the embedded pipeline on concrete
documents; restore the definitional transparency needed for witnesses. -/
attribute [local semireducible] Rat.add Rat.mul Rat.inv Rat.sub

/-! ## Claim theorems -/

/-- **C1.** The claim says every produced feature vector has length equal to
the declared feature-name list of its extractor.  The lite extractor keeps
this contract (21 = 21), but `FeatureExtractor` declares 22 feature names
while `_get_block_features` returns 23 values (the `has_separator_above`
entry has no name), so at inference (`predict.py` uses `FeatureExtractor`)
the produced vector length differs from the declared schema length. -/
theorem C1_feature_length_mismatch :
    FeatureExtractor.feature_names.length = 22 ∧
    (∀ (b : Block) (i : Nat) (m : ℚ) (fm : List (String × Int)) (ctx : HeadingInfo),
      (FeatureExtractor.getBlockFeatures b i m fm ctx).length = 23) ∧
    FeatureExtractorLite.feature_names.length = 21 ∧
    (∀ (b : Block) (i : Nat) (m : ℚ) (fm lm : List (String × Int)) (ctx : HeadingInfo),
      (FeatureExtractorLite.getBlockFeatures b i m fm lm ctx).length = 21) ∧
    (22 : Nat) ≠ 23 := by
  exact ⟨rfl, fun _ _ _ _ _ => rfl, rfl, fun _ _ _ _ _ _ => rfl, by decide⟩

/-- **C5 counterexample.** A document with zero extractable blocks does not
produce the placeholder output: both `predict_outline` and the per-document
batch body return without producing any output at all. -/
theorem C5_counterexample :
    predict_outline (fun _ => 0) [] LABEL_MAPPING [] = none ∧
    processDocument (fun _ => 0) LABEL_MAPPING [] = none ∧
    (none : Option FinalOutput) ≠ some ⟨"Document Title Not Found", []⟩ := by
  exact ⟨rfl, rfl, by decide⟩

/-- **C5 (amended).** A document with zero extractable blocks is not an
error, but it is skipped with no output produced: `predict_outline` returns
early and the batch loop moves to the next file. -/
theorem C5_empty_document_skipped :
    ∀ (model : List ℚ → Int) (fontMap labelMap : List (String × Int)),
      predict_outline model fontMap labelMap [] = none ∧
      processDocument model labelMap [] = none :=
  fun _ _ _ => ⟨rfl, rfl⟩

/-- **C8.** The rule overlay of `process_all_pdfs` is idempotent — applying
it twice gives the labels of applying it once — and it never rewrites a
label to anything other than `"NONE"`: every output position holds either
the input label or `"NONE"`.  (The label list produced by the classifier
always has one label per block, hence the length hypothesis.) -/
theorem C8_rule_overlay_idempotent :
    ∀ (blocks : List Block) (labels : List String),
      labels.length = blocks.length →
      ruleOverlay blocks (ruleOverlay blocks labels) = ruleOverlay blocks labels ∧
      ∀ i : Nat, (ruleOverlay blocks labels).get? i = labels.get? i ∨
        (ruleOverlay blocks labels).get? i = some "NONE" := by
  intro blocks
  induction blocks with
  | nil =>
    intro labels hlen
    have : labels = [] := List.length_eq_zero.mp hlen
    subst this
    exact ⟨rfl, fun i => Or.inl rfl⟩
  | cons b bs ih =>
    intro labels hlen
    cases labels with
    | nil => simp at hlen
    | cons l ls =>
      have hlen2 : ls.length = bs.length := by simpa using hlen
      have hcons : ∀ (x : String) (xs : List String),
          ruleOverlay (b :: bs) (x :: xs) =
            (if b.is_in_table || pyIsDigit (pyStrip b.text) then "NONE" else x) :: ruleOverlay bs xs := by
        intro x xs
        simp [ruleOverlay]
      constructor
      · by_cases hc : (b.is_in_table || pyIsDigit (pyStrip b.text)) = true
        · simp [hcons, hc, (ih ls hlen2).1]
        · simp [hcons, hc, (ih ls hlen2).1]
      · intro i
        rw [hcons]
        cases i with
        | zero =>
          by_cases hc : (b.is_in_table || pyIsDigit (pyStrip b.text)) = true
          · right; simp [hc]
          · left; simp [hc]
        | succ j =>
          simpa using (ih ls hlen2).2 j

/-- **C8 witness.** The overlay theorem applied to one table-resident block
labelled `"H1"`. -/
theorem C8_rule_overlay_witness :
    ruleOverlay [{ is_in_table := true }]
        (ruleOverlay [{ is_in_table := true }] ["H1"]) =
      ruleOverlay [{ is_in_table := true }] ["H1"] ∧
    ∀ i : Nat, (ruleOverlay [{ is_in_table := true }] ["H1"]).get? i = (["H1"]).get? i ∨
      (ruleOverlay [{ is_in_table := true }] ["H1"]).get? i = some "NONE" :=
  C8_rule_overlay_idempotent [{ is_in_table := true }] ["H1"] rfl

/-- `jget` over the list append performed by `upgradeBlock`. -/
theorem jget_append_single (b : JBlock) (k k0 : String) (v : JVal) :
    jget (b ++ [(k0, v)]) k =
      match jget b k with
      | some w => some w
      | none => if k0 = k then some v else none := by
  unfold jget
  rw [List.find?_append]
  cases h : b.find? (fun p => p.1 == k) with
  | some p => simp
  | none =>
    by_cases hk : k0 = k
    · simp [hk]
    · have hbeq : (k0 == k) = false := beq_eq_false_iff_ne.mpr hk
      simp [List.find?, hbeq, hk]

/-- A block that already carries a `'language'` key is left entirely
unchanged by `upgradeBlock`. -/
theorem upgradeBlock_of_hasLanguage (d : String → Option String) (b : JBlock)
    (h : (jget b "language").isSome) : upgradeBlock d b = b := by
  simp [upgradeBlock, h]

/-- After an upgrade, every block carries a `'language'` key. -/
theorem upgradeBlock_hasLanguage (d : String → Option String) (b : JBlock) :
    (jget (upgradeBlock d b) "language").isSome := by
  by_cases h : (jget b "language").isSome
  · rw [upgradeBlock_of_hasLanguage d b h]; exact h
  · unfold upgradeBlock
    simp only [h, if_false, Bool.false_eq_true]
    rw [jget_append_single]
    cases hj : jget b "language" with
    | some w => simp [hj] at h
    | none => simp

/-- Re-running `upgradeBlock` is a no-op. -/
theorem upgradeBlock_idem (d : String → Option String) (b : JBlock) :
    upgradeBlock d (upgradeBlock d b) = upgradeBlock d b :=
  upgradeBlock_of_hasLanguage d _ (upgradeBlock_hasLanguage d b)

/-- **C10.** The dataset upgrade pass only ever adds a `'language'` key:
any other key's value is unchanged, a block that already has `'language'`
is returned entirely unchanged, and re-running the upgrade (on a block or
on a whole dataset) is a no-op. -/
theorem C10_upgrade_only_adds_language :
    ∀ (d : String → Option String) (blk : JBlock),
      (∀ k : String, k ≠ "language" → jget (upgradeBlock d blk) k = jget blk k) ∧
      ((jget blk "language").isSome → upgradeBlock d blk = blk) ∧
      upgradeBlock d (upgradeBlock d blk) = upgradeBlock d blk ∧
      (∀ blocks : List JBlock,
        upgradeDataset d (upgradeDataset d blocks) = upgradeDataset d blocks) := by
  intro d blk
  have hframe : ∀ k : String, k ≠ "language" → jget (upgradeBlock d blk) k = jget blk k := by
    intro k hk
    unfold upgradeBlock
    by_cases h : (jget blk "language").isSome
    · simp [h]
    · simp only [h, if_false, Bool.false_eq_true]
      rw [jget_append_single]
      cases hj : jget blk k with
      | some w => simp
      | none =>
        have hne : ¬"language" = k := fun hkk => hk hkk.symm
        simp [hne]
  refine ⟨hframe, upgradeBlock_of_hasLanguage d blk, upgradeBlock_idem d blk, ?_⟩
  intro blocks
  unfold upgradeDataset
  rw [List.map_map]
  apply List.map_congr_left
  intro b _
  exact upgradeBlock_idem d b

/-- **C10 witness.** The upgrade theorem applied to a concrete one-key
block and a concrete already-upgraded block. -/
theorem C10_upgrade_witness :
    jget (upgradeBlock (fun _ => none) [("text", JVal.str "hi")]) "text" =
      jget [("text", JVal.str "hi")] "text" ∧
    upgradeBlock (fun _ => none) [("language", JVal.str "en")] = [("language", JVal.str "en")] := by
  constructor
  · exact (C10_upgrade_only_adds_language (fun _ => none) [("text", JVal.str "hi")]).1 "text"
      (by decide)
  · exact (C10_upgrade_only_adds_language (fun _ => none) [("language", JVal.str "en")]).2.1
      (by decide)

/-- A block whose trimmed text is exactly `"42"`, not in a table
(scenario C of the spec). -/
def block42 : Block := { text := "42" }

/-- **C3 counterexample.** In `predict_outline` the only business rule is
the table rule: a digits-only block that is not table-resident keeps the
classifier's label.  With a classifier predicting `TITLE` (id 1) for the
`"42"` block, the final rule-corrected label is `"TITLE"`, not `"NONE"`. -/
theorem C3_counterexample :
    pyIsDigit (pyStrip block42.text) = true ∧
    block42.is_in_table = false ∧
    predictFinalLabels (fun _ => 1) [] LABEL_MAPPING [block42] = ["TITLE"] ∧
    ("TITLE" : String) ≠ "NONE" := by
  refine ⟨by decide, rfl, ?_, by decide⟩
  rfl

/-- **C3 (amended).** Only the batch pipeline (`process_all_pdfs`) has the
numeric-only rule: there, any block whose trimmed text consists solely of
digits is forced to `"NONE"` regardless of the predicted label.
(`predict.py` applies only the table rule.) -/
theorem C3_batch_numeric_rule :
    ∀ (blocks : List Block) (labels : List String) (i : Nat) (b : Block),
      blocks.get? i = some b →
      i < labels.length →
      pyIsDigit (pyStrip b.text) = true →
      (ruleOverlay blocks labels).get? i = some "NONE" := by
  intro blocks
  induction blocks with
  | nil => intro labels i b hb; simp at hb
  | cons c cs ih =>
    intro labels i b hb hi hd
    cases labels with
    | nil => simp at hi
    | cons l ls =>
      cases i with
      | zero =>
        have hcb : c = b := by simpa using hb
        subst hcb
        simp [ruleOverlay, hd]
      | succ j =>
        have hb2 : cs.get? j = some b := by simpa using hb
        have hi2 : j < ls.length := by simpa using hi
        simpa [ruleOverlay] using ih ls j b hb2 hi2 hd

/-- **C3 witness.** The batch numeric rule fires on the `"42"` block even
when the classifier label was `TITLE`. -/
theorem C3_batch_numeric_rule_witness :
    (ruleOverlay [block42] ["TITLE"]).get? 0 = some "NONE" :=
  C3_batch_numeric_rule [block42] ["TITLE"] 0 block42 rfl (by decide) (by decide)

/-- A raw block whose single span has the bold style bit set (bit 4 of the
decoder's span flags) but a plain font name. -/
def boldFlagBlock : RawBlock :=
  { type := 0, lines := [⟨[⟨"Hello", 12, "Helvetica", 16⟩]⟩], bbox := ⟨0, 0, 10, 10⟩ }

/-- The same raw block with the style bits cleared. -/
def noFlagBlock : RawBlock :=
  { type := 0, lines := [⟨[⟨"Hello", 12, "Helvetica", 0⟩]⟩], bbox := ⟨0, 0, 10, 10⟩ }

/-- A page holding the flag counterexample block. -/
def flagPage : RawPage := { width := 612, height := 792, drawings := [], blocks := [boldFlagBlock] }

/-- **C4 counterexample.** `is_bold` is not a majority vote over the spans'
style bit-flags: for a block whose only span carries the bold bit
(majority vote says bold) but whose font name is plain `"Helvetica"`, the
extractor reports `is_bold = false`. -/
theorem C4_counterexample :
    specBoldByFlagsVote (blockSpans boldFlagBlock) = true ∧
    (PdfExtractor.processBlock boldFlagBlock flagPage 1 []).map Block.is_bold = some false := by
  exact ⟨by decide, rfl⟩

/-- **C4 (amended).** `is_bold` and `is_italic` are determined by keyword
substring matching on the lowercased dominant span font name; the spans'
style bit-flags are never consulted.  Hence any two raw blocks with the
same span font-name sequence — whatever their flags, texts, sizes or
geometry — get identical `is_bold` and `is_italic` (up to both being
dropped as empty). -/
theorem C4_style_ignores_flags :
    ∀ (b1 b2 : RawBlock) (p1 p2 : RawPage) (n1 n2 : Nat) (t1 t2 : List BBox),
      (blockSpans b1).map Span.font = (blockSpans b2).map Span.font →
      (PdfExtractor.processBlock b1 p1 n1 t1).map Block.is_bold =
        (PdfExtractor.processBlock b2 p2 n2 t2).map Block.is_bold ∧
      (PdfExtractor.processBlock b1 p1 n1 t1).map Block.is_italic =
        (PdfExtractor.processBlock b2 p2 n2 t2).map Block.is_italic := by
  intro b1 b2 p1 p2 n1 n2 t1 t2 hf
  have hlen : (blockSpans b1).length = (blockSpans b2).length := by
    have := congrArg List.length hf
    simpa using this
  have hmcf : b1.mostCommonFont = b2.mostCommonFont := by
    unfold RawBlock.mostCommonFont
    rw [hf]
  unfold PdfExtractor.processBlock
  by_cases he : ((blockSpans b1).map Span.text).isEmpty
  · have he2 : ((blockSpans b2).map Span.text).isEmpty := by
      rw [List.isEmpty_iff_length_eq_zero] at he ⊢
      simpa [hlen] using he
    simp [he, he2]
  · have he2 : ¬((blockSpans b2).map Span.text).isEmpty := by
      rw [List.isEmpty_iff_length_eq_zero] at he ⊢
      simpa [hlen] using he
    simp [he, he2, hmcf]

/-- **C4 witness.** The flags-invariance theorem applied to the two
concrete blocks that differ only in span style bits. -/
theorem C4_style_ignores_flags_witness :
    (PdfExtractor.processBlock boldFlagBlock flagPage 1 []).map Block.is_bold =
      (PdfExtractor.processBlock noFlagBlock flagPage 1 []).map Block.is_bold ∧
    (PdfExtractor.processBlock boldFlagBlock flagPage 1 []).map Block.is_italic =
      (PdfExtractor.processBlock noFlagBlock flagPage 1 []).map Block.is_italic :=
  C4_style_ignores_flags boldFlagBlock noFlagBlock flagPage flagPage 1 1 [] [] rfl

/-- A runtime-document block whose font name was never seen at training
time. -/
def blockZ : Block := { font_name := "Zapf", text := "Body text" }

/-- A persisted bundle font map from a training corpus that never saw
`"Zapf"`. -/
def bundleFontMap : List (String × Int) := [("Arial", 0)]

/-- **C2.** At batch inference, `process_all_pdfs` featurizes via
`FeatureExtractorLite.extract_features`, which rebuilds the font and
language id maps from the runtime document itself and never consults the
loaded bundle's persisted `font_map`.  For a document whose only font is
the unseen `"Zapf"`, the `font_name_id` feature (index 4) comes out as the
rebuilt dense id `0`; the persisted bundle map would give the sentinel
`-1`, which is what the sequential `predict.py` path (passing the bundle's
map into `_get_block_features`) produces. -/
theorem C2_batch_rebuilds_id_maps :
    (FeatureExtractorLite.extract_features [blockZ]).2 = [("Zapf", 0)] ∧
    ((FeatureExtractorLite.extract_features [blockZ]).1.get? 0 |>.bind
      (fun r => r.get? 4)) = some 0 ∧
    (dictGet bundleFontMap "Zapf" (-1) : Int) = -1 ∧
    (FeatureExtractor.getBlockFeatures blockZ 0 (docMedianFont [blockZ]) bundleFontMap
      ⟨-1, 0, docMedianFont [blockZ]⟩).get? 4 = some (-1) ∧
    ((0 : ℚ)) ≠ -1 := by
  refine ⟨rfl, rfl, rfl, rfl, by norm_num⟩

/-- A page with one wide-thin horizontal ruling `(0,10)–(100,11)` and one
tall-thin vertical ruling `(50,0)–(51,30)`. -/
def cexDrawings : List BBox := [⟨0, 10, 100, 11⟩, ⟨50, 0, 51, 30⟩]

/-- A raw block whose center `(10, 21/2)` lies inside the bounding
rectangle of all rulings but outside the code's inferred rectangle. -/
def cexRawBlock : RawBlock :=
  { type := 0, lines := [⟨[⟨"words", 12, "F", 0⟩]⟩], bbox := ⟨5, 10, 15, 11⟩ }

/-- The page combining the two. -/
def cexPage : RawPage :=
  { width := 612, height := 792, drawings := cexDrawings, blocks := [cexRawBlock] }

/-- **C7 counterexample.** The inferred rectangle takes its x-extent from
the vertical rulings only and its y-extent from the horizontal rulings
only, so it does not span all rulings: on `cexDrawings` the single inferred
rectangle `(50,10)–(51,11)` fails to contain the horizontal ruling, and a
block whose center lies inside the bounding rectangle of **all** rulings
(`specSpanningRect`) still gets `is_in_table = false`. -/
theorem C7_counterexample :
    PdfExtractor.getTableBboxesFromLines cexDrawings = [⟨50, 10, 51, 11⟩] ∧
    specSpanningRect cexDrawings = some ⟨0, 0, 100, 30⟩ ∧
    rectContainsRect ⟨50, 10, 51, 11⟩ ⟨0, 10, 100, 11⟩ = false ∧
    rectContainsPoint ⟨0, 0, 100, 30⟩ (blockCenter cexRawBlock.bbox) = true ∧
    (PdfExtractor.extractPage cexPage 1).map Block.is_in_table = [false] := by
  exact ⟨rfl, rfl, by decide, by decide, rfl⟩

/-- Inverting `keepBlock`: a kept block is the output of `processBlock`. -/
theorem keepBlock_some (page : RawPage) (n : Nat) (tb : List BBox) (rb : RawBlock)
    (x : Block) (h : PdfExtractor.keepBlock page n tb rb = some x) :
    PdfExtractor.processBlock rb page n tb = some x := by
  unfold PdfExtractor.keepBlock at h
  by_cases hc : rb.type = 0 ∧ rb.lines ≠ []
  · rw [if_pos hc] at h
    cases hp : PdfExtractor.processBlock rb page n tb with
    | none => rw [hp] at h; simp at h
    | some pb =>
      rw [hp] at h
      have h2 : (if pb.text ≠ "" then some pb else none) = some x := h
      by_cases ht : pb.text ≠ ""
      · rw [if_pos ht] at h2
        obtain rfl := Option.some.inj h2
        rfl
      · rw [if_neg ht] at h2; simp at h2
  · rw [if_neg hc] at h; simp at h

/-- `processBlock` characterization: a produced block carries the supplied
page number and the raw block's bbox. -/
theorem processBlock_meta (rb : RawBlock) (page : RawPage) (n : Nat)
    (tb : List BBox) (pb : Block)
    (h : PdfExtractor.processBlock rb page n tb = some pb) :
    pb.page_number = n ∧ pb.bbox = rb.bbox := by
  simp only [PdfExtractor.processBlock] at h
  by_cases he : ((blockSpans rb).map Span.text).isEmpty
  · simp [he] at h
  · simp only [Bool.not_eq_true] at he
    simp only [he, Bool.false_eq_true, if_false, Option.some.injEq] at h
    subst h
    exact ⟨rfl, rfl⟩

/-- `processBlock` characterization: a produced block keeps the raw block's
bbox and its table flag is the center-membership test against the supplied
rectangles. -/
theorem processBlock_table_flag (rb : RawBlock) (page : RawPage) (n : Nat)
    (tb : List BBox) (pb : Block)
    (h : PdfExtractor.processBlock rb page n tb = some pb) :
    pb.bbox = rb.bbox ∧
    pb.is_in_table = tb.any (fun r => rectContainsPoint r (blockCenter rb.bbox)) := by
  simp only [PdfExtractor.processBlock] at h
  by_cases he : ((blockSpans rb).map Span.text).isEmpty
  · simp [he] at h
  · simp only [Bool.not_eq_true] at he
    simp only [he, Bool.false_eq_true, if_false, Option.some.injEq] at h
    subst h
    exact ⟨rfl, rfl⟩

/-- **C7 (amended).** Table inference per page: at most one rectangle is
ever inferred; if the horizontal-ruling family or the vertical-ruling
family is empty, no rectangle is inferred; when both are nonempty the one
rectangle's x-extent spans the vertical rulings and its y-extent spans the
horizontal rulings; and every extracted block's table flag equals the test
"the block's geometric center lies inside an inferred rectangle" (hence
`false` whenever no rectangle was inferred). -/
theorem C7_table_region (page : RawPage) (pageNum : Nat) :
    (PdfExtractor.getTableBboxesFromLines page.drawings = [] ∨
      ∃ r : BBox, PdfExtractor.getTableBboxesFromLines page.drawings = [r]) ∧
    ((page.drawings.filter (fun r => decide (30 < rectWidth r ∧ rectHeight r < 3)) = [] ∨
      page.drawings.filter (fun r => decide (20 < rectHeight r ∧ rectWidth r < 3)) = []) →
      PdfExtractor.getTableBboxesFromLines page.drawings = []) ∧
    (∀ h0 hs v0 vs,
      page.drawings.filter (fun r => decide (30 < rectWidth r ∧ rectHeight r < 3)) = h0 :: hs →
      page.drawings.filter (fun r => decide (20 < rectHeight r ∧ rectWidth r < 3)) = v0 :: vs →
      PdfExtractor.getTableBboxesFromLines page.drawings =
        [⟨qMinList v0.x0 (vs.map BBox.x0), qMinList h0.y0 (hs.map BBox.y0),
          qMaxList v0.x1 (vs.map BBox.x1), qMaxList h0.y1 (hs.map BBox.y1)⟩]) ∧
    (∀ b ∈ PdfExtractor.extractPage page pageNum,
      b.is_in_table = (PdfExtractor.getTableBboxesFromLines page.drawings).any
        (fun r => rectContainsPoint r (blockCenter b.bbox))) := by
  refine ⟨?_, ?_, ?_, ?_⟩
  · unfold PdfExtractor.getTableBboxesFromLines
    by_cases hd : page.drawings.isEmpty
    · simp [hd]
    · simp only [hd, Bool.false_eq_true, if_false]
      cases hh : page.drawings.filter (fun r => decide (30 < rectWidth r ∧ rectHeight r < 3)) with
      | nil => simp
      | cons h0 hs =>
        cases hv : page.drawings.filter (fun r => decide (20 < rectHeight r ∧ rectWidth r < 3)) with
        | nil => simp
        | cons v0 vs => right; exact ⟨_, rfl⟩
  · intro hor
    unfold PdfExtractor.getTableBboxesFromLines
    by_cases hd : page.drawings.isEmpty
    · simp [hd]
    · simp only [hd, Bool.false_eq_true, if_false]
      cases hh : page.drawings.filter (fun r => decide (30 < rectWidth r ∧ rectHeight r < 3)) with
      | nil =>
        cases page.drawings.filter (fun r => decide (20 < rectHeight r ∧ rectWidth r < 3)) with
        | nil => rfl
        | cons v0 vs => rfl
      | cons h0 hs =>
        cases hv : page.drawings.filter (fun r => decide (20 < rectHeight r ∧ rectWidth r < 3)) with
        | nil => rfl
        | cons v0 vs =>
          rcases hor with h | h
          · rw [h] at hh
            exact absurd hh (by simp)
          · rw [h] at hv
            exact absurd hv (by simp)
  · intro h0 hs v0 vs hh hv
    unfold PdfExtractor.getTableBboxesFromLines
    have hd : ¬page.drawings.isEmpty := by
      intro hd
      rw [List.isEmpty_iff] at hd
      rw [hd] at hh
      simp at hh
    simp only [hd, Bool.false_eq_true, if_false]
    rw [hh, hv]
  · intro b hb
    unfold PdfExtractor.extractPage at hb
    rw [List.mem_filterMap] at hb
    obtain ⟨rb, _, hsome⟩ := hb
    have hp := keepBlock_some page pageNum _ rb b hsome
    obtain ⟨hbb, hflag⟩ := processBlock_table_flag rb page pageNum _ b hp
    rw [hflag, hbb]

/-- The enriched block that `extractPage` produces from `cexRawBlock`. -/
def cexBlockOut : Block :=
  { text := "words", bbox := ⟨5, 10, 15, 11⟩, page_number := 1, page_width := 612,
    page_height := 792, font_size := 12, font_name := "F", word_count := 1,
    line_count := 1, column := 1 }

/-- **C7 witness.** The table-region theorem applied to the concrete pages:
the empty-rulings page infers nothing, and on `cexPage` the inferred
rectangle and the extracted block's flag are as characterized. -/
theorem C7_table_region_witness :
    PdfExtractor.getTableBboxesFromLines flagPage.drawings = [] ∧
    PdfExtractor.getTableBboxesFromLines cexPage.drawings =
      [⟨qMinList 50 [], qMinList 10 [], qMaxList 51 [], qMaxList 11 []⟩] ∧
    cexBlockOut.is_in_table = (PdfExtractor.getTableBboxesFromLines cexPage.drawings).any
      (fun r => rectContainsPoint r (blockCenter cexBlockOut.bbox)) := by
  refine ⟨(C7_table_region flagPage 1).2.1 (Or.inl rfl), ?_, ?_⟩
  · exact (C7_table_region cexPage 1).2.2.1 ⟨0, 10, 100, 11⟩ [] ⟨50, 0, 51, 30⟩ []
      (by decide) (by decide)
  · exact (C7_table_region cexPage 1).2.2.2 cexBlockOut (by decide)

/-- Erase a block's label (used to say "same block up to its label"). -/
def Block.clearLabel (b : Block) : Block := { b with label := "NONE" }

/-- Features never read the label field. -/
theorem getBlockFeatures_clearLabel (b : Block) (i : Nat) (m : ℚ)
    (fm : List (String × Int)) (c : HeadingInfo) :
    FeatureExtractor.getBlockFeatures b.clearLabel i m fm c =
      FeatureExtractor.getBlockFeatures b i m fm c := rfl

/-- The document median depends only on the blocks' font sizes, hence not
on labels. -/
theorem docMedianFont_congr (bs1 bs2 : List Block)
    (h : bs1.map Block.clearLabel = bs2.map Block.clearLabel) :
    docMedianFont bs1 = docMedianFont bs2 := by
  have hfs : bs1.map Block.font_size = bs2.map Block.font_size := by
    have h2 := congrArg (List.map Block.font_size) h
    rw [List.map_map, List.map_map] at h2
    exact h2
  unfold docMedianFont
  rw [hfs]

/-- The training context scan at position `i` depends only on the first `i`
blocks (their labels and font sizes). -/
theorem headingContextsAux_agree :
    ∀ (bs1 bs2 : List Block) (cur : HeadingInfo) (k i : Nat),
      bs1.length = bs2.length →
      (bs1.take i).map Block.clearLabel = (bs2.take i).map Block.clearLabel →
      (bs1.take i).map Block.label = (bs2.take i).map Block.label →
      (headingContextsAux cur k bs1).get? i = (headingContextsAux cur k bs2).get? i := by
  intro bs1
  induction bs1 with
  | nil =>
    intro bs2 cur k i hlen _ _
    have : bs2 = [] := List.length_eq_zero.mp hlen.symm
    subst this
    rfl
  | cons a t1 ih =>
    intro bs2 cur k i hlen hcl hlab
    cases bs2 with
    | nil => simp at hlen
    | cons b t2 =>
      have hlen2 : t1.length = t2.length := by simpa using hlen
      cases i with
      | zero => rfl
      | succ j =>
        simp only [List.take_succ_cons, List.map_cons, List.cons.injEq] at hcl hlab
        have hfs : a.font_size = b.font_size := by
          have h3 : (a.clearLabel).font_size = (b.clearLabel).font_size :=
            congrArg Block.font_size hcl.1
          simpa [Block.clearLabel] using h3
        have hnext :
            (match parseHeadingLevel a.label with
              | some L => (⟨(k : Int), L, a.font_size⟩ : HeadingInfo)
              | none => cur) =
            (match parseHeadingLevel b.label with
              | some L => (⟨(k : Int), L, b.font_size⟩ : HeadingInfo)
              | none => cur) := by
          rw [hlab.1, hfs]
        show (headingContextsAux _ (k + 1) t1).get? j = (headingContextsAux _ (k + 1) t2).get? j
        rw [hnext]
        exact ih t2 _ (k + 1) j hlen2 hcl.2 hlab.2

/-- The inference context scan at position `i` depends only on the first
`i` blocks (up to labels, which it never reads). -/
theorem predictScan_ctxs_agree :
    ∀ (bs1 bs2 : List Block) (cur : HeadingInfo) (k i : Nat) (model : List ℚ → Int)
      (fm lm : List (String × Int)) (med : ℚ),
      bs1.length = bs2.length →
      (bs1.take i).map Block.clearLabel = (bs2.take i).map Block.clearLabel →
      ((predictScan model fm lm med k cur bs1).map Prod.fst).get? i =
        ((predictScan model fm lm med k cur bs2).map Prod.fst).get? i := by
  intro bs1
  induction bs1 with
  | nil =>
    intro bs2 cur k i model fm lm med hlen _
    have : bs2 = [] := List.length_eq_zero.mp hlen.symm
    subst this
    rfl
  | cons a t1 ih =>
    intro bs2 cur k i model fm lm med hlen hcl
    cases bs2 with
    | nil => simp at hlen
    | cons b t2 =>
      have hlen2 : t1.length = t2.length := by simpa using hlen
      cases i with
      | zero => rfl
      | succ j =>
        simp only [List.take_succ_cons, List.map_cons, List.cons.injEq] at hcl
        have hfeats : FeatureExtractor.getBlockFeatures a k med fm cur =
            FeatureExtractor.getBlockFeatures b k med fm cur := by
          rw [← getBlockFeatures_clearLabel a, ← getBlockFeatures_clearLabel b, hcl.1]
        have htab : a.is_in_table = b.is_in_table := by
          have h3 : (a.clearLabel).is_in_table = (b.clearLabel).is_in_table :=
            congrArg Block.is_in_table hcl.1
          simpa [Block.clearLabel] using h3
        have hfs : a.font_size = b.font_size := by
          have h3 : (a.clearLabel).font_size = (b.clearLabel).font_size :=
            congrArg Block.font_size hcl.1
          simpa [Block.clearLabel] using h3
        show ((predictScan model fm lm med (k + 1) _ t1).map Prod.fst).get? j =
          ((predictScan model fm lm med (k + 1) _ t2).map Prod.fst).get? j
        rw [hfeats, htab, hfs]
        exact ih t2 _ (k + 1) j model fm lm med hlen2 hcl.2

/-- **C6.** Context causality.  Fix a block sequence (two block lists equal
up to their label fields) and two label assignments that agree on all
blocks with index `< i`.  Then the training-side `HeadingContext` visible
to block `i` is identical under both assignments; and the inference-side
context list (where labels are the resolved, rule-corrected predictions the
scan itself produces) is likewise identical at `i` — it never reads block
labels at all, so it agrees as soon as the blocks below `i` agree. -/
theorem C6_context_causality (bs1 bs2 : List Block) (i : Nat)
    (hblocks : bs1.map Block.clearLabel = bs2.map Block.clearLabel)
    (hlab : (bs1.take i).map Block.label = (bs2.take i).map Block.label)
    (model : List ℚ → Int) (fontMap labelMap : List (String × Int)) :
    (headingContexts bs1 (docMedianFont bs1)).get? i =
      (headingContexts bs2 (docMedianFont bs2)).get? i ∧
    (predictContexts model fontMap labelMap bs1).get? i =
      (predictContexts model fontMap labelMap bs2).get? i := by
  have hlen : bs1.length = bs2.length := by
    have h2 := congrArg List.length hblocks
    simpa using h2
  have htake : (bs1.take i).map Block.clearLabel = (bs2.take i).map Block.clearLabel := by
    have h2 := congrArg (List.take i) hblocks
    rw [← List.map_take, ← List.map_take] at h2
    exact h2
  have hmed := docMedianFont_congr bs1 bs2 hblocks
  constructor
  · unfold headingContexts
    rw [hmed]
    exact headingContextsAux_agree bs1 bs2 ⟨-1, 0, docMedianFont bs2⟩ 0 i hlen htake hlab
  · unfold predictContexts
    rw [hmed]
    exact predictScan_ctxs_agree bs1 bs2 ⟨-1, 0, docMedianFont bs2⟩ 0 i model fontMap labelMap
      (docMedianFont bs2) hlen htake

/-- A heading block for the causality witness. -/
def ctxBlockA : Block := { font_size := 10, label := "H1" }

/-- A follow-up block labelled `H2`. -/
def ctxBlockB : Block := { font_size := 8, label := "H2" }

/-- The same follow-up block relabelled `NONE` (a perturbation at index
`≥ i`). -/
def ctxBlockB2 : Block := { font_size := 8, label := "NONE" }

/-- **C6 witness.** Perturbing the label of block 1 does not change the
context visible to block 1, in training or in inference. -/
theorem C6_context_causality_witness :
    (headingContexts [ctxBlockA, ctxBlockB] (docMedianFont [ctxBlockA, ctxBlockB])).get? 1 =
      (headingContexts [ctxBlockA, ctxBlockB2] (docMedianFont [ctxBlockA, ctxBlockB2])).get? 1 ∧
    (predictContexts (fun _ => 0) [] LABEL_MAPPING [ctxBlockA, ctxBlockB]).get? 1 =
      (predictContexts (fun _ => 0) [] LABEL_MAPPING [ctxBlockA, ctxBlockB2]).get? 1 :=
  C6_context_causality [ctxBlockA, ctxBlockB] [ctxBlockA, ctxBlockB2] 1
    (by decide) (by decide) (fun _ => 0) [] LABEL_MAPPING

/-- The reading-order key of an enriched block:
`(page_number, top edge, left edge)`. -/
def readingTriple (b : Block) : Nat × ℚ × ℚ := (b.page_number, b.bbox.y0, b.bbox.x0)

/-- Lexicographic (non-strict) order on reading triples. -/
def tripleLe (a b : Nat × ℚ × ℚ) : Prop :=
  a.1 < b.1 ∨ (a.1 = b.1 ∧ (a.2.1 < b.2.1 ∨ (a.2.1 = b.2.1 ∧ a.2.2 ≤ b.2.2)))

instance : IsTotal RawBlock rawKeyLe := ⟨by
  intro a b
  unfold rawKeyLe
  rcases lt_trichotomy a.bbox.y0 b.bbox.y0 with h | h | h
  · exact Or.inl (Or.inl h)
  · rcases le_total a.bbox.x0 b.bbox.x0 with h2 | h2
    · exact Or.inl (Or.inr ⟨h, h2⟩)
    · exact Or.inr (Or.inr ⟨h.symm, h2⟩)
  · exact Or.inr (Or.inl h)⟩

instance : IsTrans RawBlock rawKeyLe := ⟨by
  intro a b c hab hbc
  unfold rawKeyLe at hab hbc ⊢
  rcases hab with h1 | ⟨h1, h1x⟩
  · rcases hbc with h2 | ⟨h2, h2x⟩
    · exact Or.inl (h1.trans h2)
    · exact Or.inl (by rw [← h2]; exact h1)
  · rcases hbc with h2 | ⟨h2, h2x⟩
    · exact Or.inl (by rw [h1]; exact h2)
    · exact Or.inr ⟨h1.trans h2, h1x.trans h2x⟩⟩

/-- Inverting `extractPage` membership down to `processBlock`. -/
theorem extractPage_mem (page : RawPage) (k : Nat) (b : Block)
    (hb : b ∈ PdfExtractor.extractPage page k) :
    ∃ rb, PdfExtractor.processBlock rb page k
        (PdfExtractor.getTableBboxesFromLines page.drawings) = some b := by
  unfold PdfExtractor.extractPage at hb
  rw [List.mem_filterMap] at hb
  obtain ⟨rb, _, hsome⟩ := hb
  exact ⟨rb, keepBlock_some page k _ rb b hsome⟩

/-- Every block extracted from a page carries that page's number. -/
theorem extractPage_page_number (page : RawPage) (k : Nat) :
    ∀ b ∈ PdfExtractor.extractPage page k, b.page_number = k := by
  intro b hb
  obtain ⟨rb, hp⟩ := extractPage_mem page k b hb
  exact (processBlock_meta rb page k _ b hp).1

/-- The blocks of one page come out sorted by reading triple. -/
theorem extractPage_sorted (page : RawPage) (k : Nat) :
    (PdfExtractor.extractPage page k).Pairwise
      (fun x y => tripleLe (readingTriple x) (readingTriple y)) := by
  unfold PdfExtractor.extractPage
  rw [List.pairwise_filterMap]
  have hs : (List.insertionSort rawKeyLe page.blocks).Pairwise rawKeyLe :=
    List.sorted_insertionSort rawKeyLe page.blocks
  refine hs.imp ?_
  intro a c hac x hx y hy
  have hpx := keepBlock_some page k _ a x (Option.mem_def.mp hx)
  have hpy := keepBlock_some page k _ c y (Option.mem_def.mp hy)
  have hmx := processBlock_meta a page k _ x hpx
  have hmy := processBlock_meta c page k _ y hpy
  unfold rawKeyLe at hac
  unfold tripleLe readingTriple
  rw [hmx.1, hmy.1, hmx.2, hmy.2]
  exact Or.inr ⟨rfl, hac⟩

/-- The page accumulator yields a globally sorted block sequence, all of
whose page numbers are at least the starting page number. -/
theorem extractPagesFrom_sorted :
    ∀ (ps : List RawPage) (k : Nat),
      ((PdfExtractor.extractPagesFrom k ps).Pairwise
        (fun x y => tripleLe (readingTriple x) (readingTriple y))) ∧
      ∀ b ∈ PdfExtractor.extractPagesFrom k ps, k ≤ b.page_number := by
  intro ps
  induction ps with
  | nil =>
    intro k
    constructor
    · exact List.Pairwise.nil
    · intro b hb
      simp [PdfExtractor.extractPagesFrom] at hb
  | cons p rest ih =>
    intro k
    unfold PdfExtractor.extractPagesFrom
    constructor
    · rw [List.pairwise_append]
      refine ⟨extractPage_sorted p k, (ih (k + 1)).1, ?_⟩
      intro x hx y hy
      have hx1 : x.page_number = k := extractPage_page_number p k x hx
      have hy1 : k + 1 ≤ y.page_number := (ih (k + 1)).2 y hy
      unfold tripleLe readingTriple
      left
      omega
    · intro b hb
      rw [List.mem_append] at hb
      rcases hb with hb | hb
      · exact (extractPage_page_number p k b hb).symm.le
      · have h2 := (ih (k + 1)).2 b hb
        omega

/-- `_post_process_spacing` only rewrites the two vertical-gap fields: the
reading triples of the block list are untouched. -/
theorem postProcessSpacing_triples (bs : List Block) :
    (PdfExtractor.postProcessSpacing bs).map readingTriple = bs.map readingTriple := by
  unfold PdfExtractor.postProcessSpacing
  rw [List.map_map]
  show bs.enum.map (readingTriple ∘ Prod.snd) = bs.map readingTriple
  rw [← List.map_map, List.enum_map_snd]

/-- **C9.** Reading-order invariant: the extracted block list's
`(page_number, top, left)` triples are non-decreasing in lexicographic
order, and the only downstream block-list transformation
(`_post_process_spacing`) preserves the triple sequence (it re-orders
nothing). -/
theorem C9_reading_order (pages : List RawPage) :
    ((PdfExtractor.extractEnrichedBlocks pages).map readingTriple).Pairwise tripleLe ∧
    ∀ bs : List Block,
      (PdfExtractor.postProcessSpacing bs).map readingTriple = bs.map readingTriple := by
  constructor
  · unfold PdfExtractor.extractEnrichedBlocks
    rw [postProcessSpacing_triples, List.pairwise_map]
    exact (extractPagesFrom_sorted pages 1).1
  · exact postProcessSpacing_triples
